import Mathlib

/-!
Verification development for the multi-source normalization-and-alignment
pipeline of src/clean_data.py (DSCI510 final project).

Shallow embedding conventions:
* A calendar month is a natural number: year * 12 + (monthNumber - 1),
  so 2016-01 is 24192 and 2025-12 is 24311.
* pandas DataFrames become the structure DF: a month index (list of month
  numbers, in index order) together with named columns; each column stores
  only its non-missing cells as an association list from month to rational
  value.  A missing cell (NaN) of a column is a month of the index that is
  absent from that column's association list.
* Floating-point values are modelled as rationals.
* Python exceptions that escape a function are modelled with Except PyErr.
-/

attribute [local semireducible] Rat.add Rat.mul Rat.inv Rat.sub Rat.ofScientific

/-- Python exceptions that the pipeline can raise, as far as the claims need
to distinguish them. -/
inductive PyErr where
  | keyError
  | valueError
  | attributeError
  | noData
deriving DecidableEq, Repr

instance {ε α : Type} [DecidableEq ε] [DecidableEq α] : DecidableEq (Except ε α) := fun a b =>
  match a, b with
  | .error x, .error y =>
    match decEq x y with
    | isTrue h => isTrue (by rw [h])
    | isFalse h => isFalse (fun hc => h (Except.error.inj hc))
  | .error _, .ok _ => isFalse (fun hc => Except.noConfusion hc)
  | .ok _, .error _ => isFalse (fun hc => Except.noConfusion hc)
  | .ok x, .ok y =>
    match decEq x y with
    | isTrue h => isTrue (by rw [h])
    | isFalse h => isFalse (fun hc => h (Except.ok.inj hc))

/-- A monthly-indexed table: the shallow embedding of a pandas DataFrame as
produced and consumed by clean_data.py.  index is the row index (month
numbers, in order); cols maps each column name to the association list of its
non-missing (month, value) cells. -/
structure DF where
  index : List Nat
  cols : List (String × List (Nat × ℚ))
deriving DecidableEq, Repr

/-- Association-list lookup with decidable equality on the key (pandas label
lookup). -/
def lookupA {κ β : Type} [DecidableEq κ] (k : κ) : List (κ × β) → Option β
  | [] => none
  | (k', v) :: r => if k = k' then some v else lookupA k r

/-- The empty DataFrame, pd.DataFrame(). -/
def DF.empty : DF := ⟨[], []⟩

/-- pandas df.empty: true when either axis has length zero. -/
def DF.isEmpty (t : DF) : Bool := t.index.isEmpty || t.cols.isEmpty

/-- Cell of a DataFrame: value of column c at month m, none when missing. -/
def DF.cell (t : DF) (c : String) (m : Nat) : Option ℚ :=
  (lookupA c t.cols).bind (fun s => lookupA m s)

/-- Column of a DataFrame in positional (row-aligned) form: one optional
value per index entry. -/
def DF.colPos (t : DF) (c : String) : List (Option ℚ) :=
  t.index.map (fun m => t.cell c m)

/-- START_DATE = '2016-01-01' as a month number. -/
def startMonth : Nat := 2016 * 12

/-- END_DATE = '2025-12-31' as a month number. -/
def endMonth : Nat := 2025 * 12 + 11

/-- Month inside the configured analysis window (the label slice
df[START_DATE:END_DATE] is inclusive at both ends; since END_DATE is the last
day of 2025-12, a month is kept exactly when it lies between the two
months). -/
def inWindow (m : Nat) : Bool := decide (startMonth ≤ m) && decide (m ≤ endMonth)

/-- df[START_DATE:END_DATE]: restrict a table to the analysis window. -/
def windowRestrict (t : DF) : DF :=
  ⟨t.index.filter inWindow,
   t.cols.map (fun p => (p.1, p.2.filter (fun q => inWindow q.1)))⟩

/-- Sorted deduplication: the index produced by a pandas outer join on two
(unique) indices, i.e. the sorted union. -/
def sortedDedup (l : List Nat) : List Nat :=
  List.insertionSort (· ≤ ·) l.dedup

/-- df.sort_index(): sort the index ascending (column cells are keyed by
month, so only the index order changes). -/
def sortIndexDF (t : DF) : DF := ⟨List.insertionSort (· ≤ ·) t.index, t.cols⟩

/-- a.join(b, how='outer') for tables with disjoint column names and unique
indices: the index becomes the sorted union and the columns of both operands
are kept (each cell is still keyed by its month, so values are untouched). -/
def joinOuter (a b : DF) : DF :=
  ⟨sortedDedup (a.index ++ b.index), a.cols ++ b.cols⟩

/-!  Linear interpolation with limit_direction='both'
(df.interpolate(method='linear', limit_direction='both')).

pandas semantics, per column, over row positions (method='linear' treats the
values as equally spaced and ignores the index):
* a missing cell with observed values on both sides takes the straight-line
  value between the nearest observed neighbours;
* a missing cell with observed values on one side only (leading or trailing
  run of NaNs) takes the nearest observed value itself;
* a column with no observed value stays all-missing. -/

/-- Nearest observed value at a position strictly before j (position and
value), scanning backwards. -/
def lastObsBefore (ys : List (Option ℚ)) (j : Nat) : Option (Nat × ℚ) :=
  (List.range j).reverse.findSome? (fun i => (ys.getD i none).map (fun v => (i, v)))

/-- Nearest observed value at a position ≥ j (position and value), scanning
forwards. -/
def firstObsFrom (ys : List (Option ℚ)) (j : Nat) : Option (Nat × ℚ) :=
  (List.range' j (ys.length - j)).findSome? (fun i => (ys.getD i none).map (fun v => (i, v)))

/-- Interpolated value at position j of a column. -/
def interpAt (ys : List (Option ℚ)) (j : Nat) : Option ℚ :=
  match ys.getD j none with
  | some v => some v
  | none =>
    match lastObsBefore ys j, firstObsFrom ys (j + 1) with
    | some (i, v), some (k, w) =>
        some (v + (w - v) * ((j : ℚ) - (i : ℚ)) / ((k : ℚ) - (i : ℚ)))
    | some (_, v), none => some v
    | none, some (_, w) => some w
    | none, none => none

/-- One column of df.interpolate(method='linear', limit_direction='both'),
positionally. -/
def interpolateColumn (ys : List (Option ℚ)) : List (Option ℚ) :=
  (List.range ys.length).map (interpAt ys)

/-- Rebuild a column association list from a positional column (months of the
index paired with the positional values; missing cells are dropped). -/
def reassoc (idx : List Nat) (ys : List (Option ℚ)) : List (Nat × ℚ) :=
  (idx.zip ys).filterMap (fun p => p.2.map (fun v => (p.1, v)))

/-- Positional form of a column association list relative to an index. -/
def posOf (idx : List Nat) (s : List (Nat × ℚ)) : List (Option ℚ) :=
  idx.map (fun m => lookupA m s)

/-- df.interpolate(method='linear', limit_direction='both') on a whole
table. -/
def interpolateTable (t : DF) : DF :=
  ⟨t.index,
   t.cols.map (fun p => (p.1, reassoc t.index (interpolateColumn (posOf t.index p.2))))⟩

/-! String helpers.  All string processing is done over the underlying
character lists so that every definition evaluates by kernel reduction. -/

/-- Lexicographic comparison of character lists by code point: the semantics
of Python string comparison (and of Lean's String order) restricted to the
ASCII data handled by the pipeline. -/
def charsLe : List Char → List Char → Bool
  | [], _ => true
  | _ :: _, [] => false
  | a :: as, b :: bs =>
    if a.toNat < b.toNat then true
    else if b.toNat < a.toNat then false
    else charsLe as bs

/-- Python s1 <= s2 on strings. -/
def strLe (a b : String) : Bool := charsLe a.data b.data

/-- Decimal digit test by code point. -/
def isDigitChar (c : Char) : Bool := decide (48 ≤ c.toNat) && decide (c.toNat ≤ 57)

/-- Parse a non-empty all-digit character list as a natural number (leading
zeros allowed), none otherwise. -/
def digitsVal? (cs : List Char) : Option Nat :=
  match cs with
  | [] => none
  | _ => cs.foldl (fun acc c =>
      acc.bind (fun n => if isDigitChar c then some (n * 10 + (c.toNat - 48)) else none))
      (some 0)

/-- Python str.strip() for the space character (the only whitespace the
scraped tokens contain). -/
def stripChars (cs : List Char) : List Char :=
  (cs.dropWhile (fun c => c = ' ')).reverse.dropWhile (fun c => c = ' ') |>.reverse

/-- Split a character list at every occurrence of a separator character. -/
def splitOnChar (sep : Char) (cs : List Char) : List (List Char) :=
  match cs with
  | [] => [[]]
  | c :: rest =>
    let r := splitOnChar sep rest
    if c = sep then [] :: r
    else match r with
      | [] => [[c]]
      | g :: gs => (c :: g) :: gs

/-! Source A (SeriesParser): clean_cpi_data. -/

/-- One {year, period, value} point of a BLS series.  The value is modelled
as already numeric: a non-numeric value string would make float(value) raise,
which is outside every claim's input domain. -/
structure CPIItem where
  year : Nat
  period : String
  value : ℚ
deriving DecidableEq, Repr

/-- One named series of the nested payload. -/
structure CPISeries where
  seriesID : String
  data : List CPIItem
deriving DecidableEq, Repr

/-- The raw CPI file: either the expected Results/series nesting is missing,
or a list of series is present. -/
inductive CPIFile where
  | malformed
  | wellFormed (series : List CPISeries)
deriving DecidableEq, Repr

/-- The fixed series-ID lookup table of clean_cpi_data. -/
def seriesMap : List (String × String) :=
  [("CUUR0000SA0", "CPI_Total"),
   ("CUUR0000SAF1", "CPI_Food"),
   ("CUUR0000SA0E", "CPI_Energy"),
   ("CUUR0000SAH1", "CPI_Shelter")]

/-- series_map.get(series_id, series_id): unknown identifiers pass through. -/
def seriesName (id : String) : String := (lookupA id seriesMap).getD id

/-- The filter 'M01' <= period <= 'M12' of clean_cpi_data (Python string
comparison). -/
def isMonthPeriod (p : String) : Bool := strLe "M01" p && strLe p "M12"

/-- Month number of a period code: the digits after the leading character
(period[1:]), as parsed by pd.to_datetime when the date string is assembled;
none when the suffix is not a month number (pd.to_datetime then raises). -/
def monthNum (p : String) : Option Nat :=
  match digitsVal? (p.data.drop 1) with
  | some n => if 1 ≤ n ∧ n ≤ 12 then some n else none
  | none => none

/-- One long-form record of clean_cpi_data: date components, column name and
value. -/
structure CPIRecord where
  year : Nat
  period : String
  col : String
  value : ℚ
deriving DecidableEq, Repr

/-- The long-form record list built by the parsing loop of clean_cpi_data
(month periods only). -/
def cpiRecords (ss : List CPISeries) : List CPIRecord :=
  ss.flatMap (fun sr =>
    sr.data.filterMap (fun it =>
      if isMonthPeriod it.period
      then some ⟨it.year, it.period, seriesName sr.seriesID, it.value⟩
      else none))

/-- Month number (absolute) of a record, when its period parses. -/
def recMonth (r : CPIRecord) : Option Nat :=
  (monthNum r.period).map (fun n => r.year * 12 + (n - 1))

/-- df.pivot(index='date', columns='type', values='value') followed by
pd.to_datetime on the index and sort_index: one row per distinct date, one
column per distinct type.  The source pivots on the date string
f-string(year, period[1:]); distinct (year, period) pairs of month records
correspond exactly to distinct date strings, so the pivot keys are modelled
by (year, period). -/
def cpiPivot (recs : List CPIRecord) : DF :=
  let keys := (recs.map (fun r => (r.year, r.period))).dedup
  let idx := List.insertionSort (· ≤ ·)
    (keys.filterMap (fun k => (monthNum k.2).map (fun n => k.1 * 12 + (n - 1))))
  let names := (recs.map (fun r => r.col)).dedup
  ⟨idx,
   names.map (fun c =>
     (c, recs.filterMap (fun r =>
        if r.col = c then (recMonth r).map (fun m => (m, r.value)) else none)))⟩

/-- Series.pct_change(periods=12) * 100, positionally: the comparison value
is the one 12 rows earlier.  Modelled without forward-filling of missing
operands (pandas fill_method=None); with the legacy pad default the two
differ only at rows whose own value is missing, which no theorem below
inspects. -/
def pctChange12 (xs : List (Option ℚ)) : List (Option ℚ) :=
  (List.range xs.length).map (fun j =>
    if j < 12 then none
    else match xs.getD (j - 12) none, xs.getD j none with
      | some w, some v => some ((v - w) / w * 100)
      | _, _ => none)

/-- The feature-engineering loop: one derived column per original column
(the loop iterates over the column index captured before the first
assignment, so derived columns are not themselves derived from). -/
def addYoY (t : DF) : DF :=
  ⟨t.index,
   t.cols ++ t.cols.map (fun p =>
     (p.1 ++ "_YoY", reassoc t.index (pctChange12 (posOf t.index p.2))))⟩

/-- clean_cpi_data.  Input none: the raw file is missing (FileNotFoundError
is caught, None is returned).  Malformed: the Results/series nesting is
absent (None is returned).  Otherwise the records are extracted; an empty
record list makes df.pivot raise KeyError (the empty frame has no 'date'
column), duplicate (date, type) keys make df.pivot raise ValueError, and a
filtered period whose suffix is not a month number makes pd.to_datetime on
the pivoted index raise (the pivot's duplicate check on date strings runs
first, so it is checked first here). -/
def clean_cpi_data : Option CPIFile → Except PyErr (Option DF)
  | none => .ok none
  | some .malformed => .ok none
  | some (.wellFormed ss) =>
    let recs := cpiRecords ss
    if recs.isEmpty then .error .keyError
    else if ¬ (recs.map (fun r => (r.year, r.period, r.col))).Nodup then .error .valueError
    else if recs.any (fun r => (recMonth r).isNone) then .error .valueError
    else .ok (some (addYoY (cpiPivot recs)))

/-- Canonical period codes: every month record's period is one of the twelve
zero-padded codes (the only forms the BLS payload uses; the spec describes
the input as having period-code M01..M12 or a non-month code). -/
def canonicalPeriods (ss : List CPISeries) : Prop :=
  ∀ r ∈ cpiRecords ss, r.period ∈
    ["M01", "M02", "M03", "M04", "M05", "M06",
     "M07", "M08", "M09", "M10", "M11", "M12"]

instance (ss : List CPISeries) : Decidable (canonicalPeriods ss) := by
  unfold canonicalPeriods; infer_instance

/-! Source B (ScrapedTableParser): clean_energy_data. -/

/-- Three-letter month abbreviations and their month numbers (the fixed
month_map of clean_labor_data, also used to parse the scraped row headers). -/
def monthAbbrevs : List (String × Nat) :=
  [("Jan", 1), ("Feb", 2), ("Mar", 3), ("Apr", 4), ("May", 5), ("Jun", 6),
   ("Jul", 7), ("Aug", 8), ("Sep", 9), ("Oct", 10), ("Nov", 11), ("Dec", 12)]

/-- Year of a scraped row header via pd.to_datetime(header).year, for the
Mon-YYYY headers the scraped tables use (e.g. "Oct-2023" is October 2023);
none when the header does not parse as a date (the row is then skipped). -/
def parseHeaderYear (s : String) : Option Nat :=
  match splitOnChar '-' s.data with
  | [mon, yr] =>
    match lookupA (String.mk mon) monthAbbrevs with
    | some _ => digitsVal? yr
    | none => none
  | _ => none

/-- The month/day date fragment "MM/DD" of a data pair combined with the
derived year, via pd.to_datetime(f"{year}-{MM}-{DD}", errors='coerce'):
(month number 1..12, day), none when the fragment is not of that shape
(the coerced NaT is dropped later). -/
def parseMD (s : String) : Option (Nat × Nat) :=
  match splitOnChar '/' s.data with
  | [mm, dd] =>
    match digitsVal? mm, digitsVal? dd with
    | some m, some d =>
      if 1 ≤ m ∧ m ≤ 12 ∧ 1 ≤ d ∧ d ≤ 31 then some (m, d) else none
    | _, _ => none
  | _ => none

/-- Python float(s) for the plain decimal strings the scraped tables carry:
optional sign, digits with at most one decimal point; none when the string
does not parse (ValueError, the pair is skipped). -/
def parseFloat? (cs0 : List Char) : Option ℚ :=
  let core : List Char → Option ℚ := fun cs =>
    match splitOnChar '.' cs with
    | [ip] => (digitsVal? ip).map (fun n => (n : ℚ))
    | [ip, fp] =>
      if ip.isEmpty ∧ fp.isEmpty then none
      else
        let ipV : Option ℚ := if ip.isEmpty then some 0 else (digitsVal? ip).map (fun n => (n : ℚ))
        let fpV : Option ℚ :=
          if fp.isEmpty then some 0
          else (digitsVal? fp).map (fun n => (n : ℚ) / (10 : ℚ) ^ fp.length)
        ipV.bind (fun a => fpV.map (fun b => a + b))
    | _ => none
  match stripChars cs0 with
  | '-' :: rest => (core rest).map (fun q => -q)
  | '+' :: rest => core rest
  | cs => core cs

/-- The (date, price) pairs of one scraped row after the header: pairs are
taken two tokens at a time, a trailing unpaired token is dropped, non-string
or blank tokens skip the pair, a price that does not parse as a float skips
the pair, and a date fragment that does not parse is kept as a missing date
(NaT) to be dropped later.  The date is (absolute month, day). -/
def parsePairsE (y : Nat) : List (Option String) → List (Option (Nat × Nat) × ℚ)
  | a :: b :: rest =>
    let tail := parsePairsE y rest
    (match a, b with
     | some dp, some ps =>
       if stripChars dp.data = [] ∨ stripChars ps.data = [] then tail
       else
         match parseFloat? ps.data with
         | none => tail
         | some v =>
           ((parseMD dp).map (fun md => (y * 12 + (md.1 - 1), md.2)), v) :: tail
     | _, _ => tail)
  | _ => []

/-- All (date, price) points contributed by one scraped row: none when the
row is empty or its header does not yield a year. -/
def parseRowPairs (row : List (Option String)) : List (Option (Nat × Nat) × ℚ) :=
  match row with
  | [] => []
  | h :: rest =>
    match h with
    | none => []
    | some hs =>
      match parseHeaderYear hs with
      | none => []
      | some y => parsePairsE y rest

/-- df.resample('MS').mean(): group the points by calendar month and average
them; the index is the contiguous month range from the first to the last
observed month, months without points staying missing. -/
def resampleMS (pts : List (Nat × ℚ)) (name : String) : DF :=
  match pts with
  | [] => ⟨[], [(name, [])]⟩
  | p :: rest =>
    let ms := (p :: rest).map (fun q => q.1)
    let lo := ms.foldl Nat.min p.1
    let hi := ms.foldl Nat.max p.1
    let idx := List.range' lo (hi + 1 - lo)
    ⟨idx,
     [(name, idx.filterMap (fun m =>
        let g := (p :: rest).filter (fun q => q.1 = m)
        if g.isEmpty then none
        else some (m, (g.map (fun q => q.2)).sum / (g.length : ℚ))))]⟩

/-- One energy measure: none when the file is missing or unreadable, or when
no pair at all was extracted (both are skipped with a warning); otherwise the
monthly resampled single-column table (points with missing dates dropped). -/
def energyMeasure (input : Option (List (List (Option String)))) (name : String) :
    Option DF :=
  match input with
  | none => none
  | some rows =>
    let prs := rows.flatMap parseRowPairs
    if prs.isEmpty then none
    else
      let pts := prs.filterMap (fun q => q.1.map (fun d => (d.1, q.2)))
      some (resampleMS pts name)

/-- The accumulation step shared by clean_energy_data and clean_labor_data:
a skipped measure leaves the accumulator unchanged; otherwise the measure
replaces an empty accumulator or is outer-joined onto a non-empty one. -/
def combineSource (acc : DF) (o : Option DF) : DF :=
  match o with
  | none => acc
  | some d => if acc.isEmpty then d else joinOuter acc d

/-- clean_energy_data: per-measure parse and monthly resample, outer join of
the three measures, window restriction and index sort; the empty frame when
every measure was skipped. -/
def clean_energy_data (g d o : Option (List (List (Option String)))) : DF :=
  let c := combineSource
    (combineSource (combineSource DF.empty (energyMeasure g "Gas_Price"))
      (energyMeasure d "Diesel_Price"))
    (energyMeasure o "Oil_Price")
  if c.isEmpty then DF.empty else sortIndexDF (windowRestrict c)

/-! Source C (MatrixMelter): clean_labor_data. -/

/-- One row of a wide labor CSV: the Year cell and the remaining cells by
(stripped) column name; a cell is none when pd.to_numeric(errors='coerce')
turns it into a missing value.  A file whose Year column is absent or whose
Year cells do not form dates makes the source skip the measure via its broad
except clause, so such files are modelled by an absent input. -/
def LaborRow : Type := Nat × List (String × Option ℚ)

/-- The long-form points of one melted labor matrix: per cell of a recognized
month column, the absolute month and the (possibly missing) rate. -/
def laborPts (rows : List LaborRow) : List (Nat × Option ℚ) :=
  (rows.flatMap (fun r => r.2.map (fun c => (r.1, c)))).filterMap (fun t =>
    (lookupA t.2.1 monthAbbrevs).map (fun n => (t.1 * 12 + (n - 1), t.2.2)))

/-- One labor measure: melt the year-by-month matrix to long form, keep the
twelve recognized month columns, build the month index, sort by date, and
set the (possibly duplicated) date index. -/
def laborMeasure (input : Option (List LaborRow)) (name : String) : Option DF :=
  match input with
  | none => none
  | some rows =>
    some ⟨List.insertionSort (· ≤ ·) ((laborPts rows).map (fun q => q.1)),
          [(name, (laborPts rows).filterMap (fun q => q.2.map (fun v => (q.1, v))))]⟩

/-- clean_labor_data: the three melted measures outer-joined; the combined
table is window-restricted and sorted only when it is non-empty. -/
def clean_labor_data (lt lm lw : Option (List LaborRow)) : DF :=
  let c := combineSource
    (combineSource (combineSource DF.empty (laborMeasure lt "Unemp_Total"))
      (laborMeasure lm "Unemp_Men"))
    (laborMeasure lw "Unemp_Women")
  if c.isEmpty then c else sortIndexDF (windowRestrict c)

/-! Source D (TextAggregator): clean_news_data. -/

/-- One news document.  date is the publish month parsed from the date or
pub_date field with pd.to_datetime(errors='coerce') and timezone stripped:
none when the field is absent or unparseable (the row is dropped). -/
structure Article where
  date : Option Nat
  headline : Option String
  snippet : Option String
deriving DecidableEq, Repr

/-- df['full_text']: headline and snippet concatenated with a space (absent
fields as empty strings) and lower-cased. -/
def fullTextChars (a : Article) : List Char :=
  ((a.headline.getD "") ++ " " ++ (a.snippet.getD "")).data.map Char.toLower

/-- Does pat start the list? -/
def listStartsWith : List Char → List Char → Bool
  | [], _ => true
  | _ :: _, [] => false
  | p :: ps, c :: cs => p == c && listStartsWith ps cs

/-- Does pat occur as a contiguous substring? -/
def occursIn (pat : List Char) : List Char → Bool
  | [] => listStartsWith pat []
  | c :: cs => listStartsWith pat (c :: cs) || occursIn pat cs

/-- The fixed keyword list of clean_news_data. -/
def keywords : List String :=
  ["inflation", "recession", "crisis", "high price", "layoff", "unemployment"]

/-- Python kw.title().replace(' ', '_'): capitalize the first letter of every
space-separated word, lower-case the rest, then join with underscores. -/
def titleUnder : List Char → Bool → List Char
  | [], _ => []
  | c :: r, atStart =>
    if c = ' ' then '_' :: titleUnder r true
    else (if atStart then c.toUpper else c.toLower) :: titleUnder r false

/-- Name of a keyword count column, f"News_Count_{kw.title().replace(' ', '_')}". -/
def newsColName (kw : String) : String :=
  "News_Count_" ++ String.mk (titleUnder kw.data true)

/-- Per-document keyword indicator,
df['full_text'].str.contains(kw, case=False, regex=False).astype(int):
1 exactly when the keyword occurs as a literal substring after both sides are
lower-cased (full_text is already lower-cased once; case=False lower-cases
both operands again). -/
def indicator (a : Article) (kw : String) : ℚ :=
  if occursIn (kw.data.map Char.toLower) ((fullTextChars a).map Char.toLower) then 1 else 0

/-- The documents that survive date parsing and the analysis-window filter. -/
def survivors (arts : List Article) : List Article :=
  arts.filter (fun a =>
    match a.date with
    | some d => inWindow d
    | none => false)

/-- Monthly keyword count: the resample('MS').sum() cell for month m of the
indicator column of kw. -/
def monthlyCount (arts : List Article) (kw : String) (m : Nat) : ℚ :=
  (((survivors arts).filter (fun a => a.date = some m)).map (fun a => indicator a kw)).sum

/-- Monthly total, df_monthly.sum(axis=1) over the keyword count columns. -/
def totalCount (arts : List Article) (m : Nat) : ℚ :=
  (keywords.map (fun kw => monthlyCount arts kw m)).sum

/-- clean_news_data: none models the absence of both the JSON chunks and the
ZIP archive (and the empty article list), yielding the empty frame; otherwise
the surviving documents are aggregated to monthly keyword counts over the
contiguous month range of the resample, plus the row-wise total column. -/
def clean_news_data (input : Option (List Article)) : DF :=
  match input with
  | none => DF.empty
  | some arts =>
    match (survivors arts).filterMap (fun a => a.date) with
    | [] => ⟨[], keywords.map (fun kw => (newsColName kw, []))
                 ++ [("News_Total_Counting", [])]⟩
    | m0 :: ms =>
      let lo := (m0 :: ms).foldl Nat.min m0
      let hi := (m0 :: ms).foldl Nat.max m0
      let idx := List.range' lo (hi + 1 - lo)
      ⟨idx, keywords.map (fun kw =>
          (newsColName kw, idx.map (fun m => (m, monthlyCount arts kw m))))
        ++ [("News_Total_Counting", idx.map (fun m => (m, totalCount arts m)))]⟩

/-! Final integration: merge_all_data. -/

/-- The raw inputs of one pipeline run: one optional raw payload per source
file (none = the file is missing, or unreadable where the source skips
unreadable files). -/
structure PipelineInput where
  cpi : Option CPIFile
  gas : Option (List (List (Option String)))
  diesel : Option (List (List (Option String)))
  oil : Option (List (List (Option String)))
  laborTotal : Option (List LaborRow)
  laborMen : Option (List LaborRow)
  laborWomen : Option (List LaborRow)
  news : Option (List Article)

/-- The left-to-right outer-join reduction of merge_all_data:
final_df = dfs[0] followed by final_df = final_df.join(df, how='outer') for
the remaining tables. -/
def mergeTables : List DF → DF
  | [] => DF.empty
  | d :: rest => rest.foldl joinOuter d

/-- merge_all_data.  The four cleaners run first (an exception from
clean_cpi_data propagates).  The comprehension
[d for d in [df1, df2, df3, df4] if not d.empty] evaluates d.empty on df1,
which is None - not a DataFrame - whenever the CPI source was missing or
malformed, raising AttributeError.  Otherwise the non-empty tables are
outer-joined left to right, window-restricted and interpolated; with no
table at all to merge the run stops with an error message and no output
file.  A returned table is the written final dataset; an error means no
final dataset is produced. -/
def merge_all_data (pin : PipelineInput) : Except PyErr DF :=
  match clean_cpi_data pin.cpi with
  | .error e => .error e
  | .ok odf1 =>
    let df2 := clean_energy_data pin.gas pin.diesel pin.oil
    let df3 := clean_labor_data pin.laborTotal pin.laborMen pin.laborWomen
    let df4 := clean_news_data pin.news
    match odf1 with
    | none => .error .attributeError
    | some df1 =>
      match [df1, df2, df3, df4].filter (fun t => !t.isEmpty) with
      | [] => .error .noData
      | d :: rest => .ok (interpolateTable (windowRestrict (mergeTables (d :: rest))))

/-! Lemmas about the interpolation primitives. -/

theorem mem_range'_iff (j n i : Nat) : i ∈ List.range' j n ↔ j ≤ i ∧ i < j + n := by
  rw [List.mem_range']
  constructor
  · rintro ⟨k, hk, rfl⟩; omega
  · intro h; exact ⟨i - j, by omega, by omega⟩

theorem getD_eq_none_of_le (ys : List (Option ℚ)) (j : Nat) (h : ys.length ≤ j) :
    ys.getD j none = none := by
  rw [List.getD_eq_getElem?_getD, List.getElem?_eq_none h]
  rfl

theorem lastObsBefore_eq_none_iff (ys : List (Option ℚ)) (j : Nat) :
    lastObsBefore ys j = none ↔ ∀ i, i < j → ys.getD i none = none := by
  unfold lastObsBefore
  rw [List.findSome?_eq_none_iff]
  constructor
  · intro h i hij
    exact Option.map_eq_none'.mp (h i (by rw [List.mem_reverse, List.mem_range]; exact hij))
  · intro h i hi
    rw [List.mem_reverse, List.mem_range] at hi
    rw [h i hi]; rfl

theorem firstObsFrom_eq_none_iff (ys : List (Option ℚ)) (j : Nat) :
    firstObsFrom ys j = none ↔ ∀ i, j ≤ i → i < ys.length → ys.getD i none = none := by
  unfold firstObsFrom
  rw [List.findSome?_eq_none_iff]
  constructor
  · intro h i hji hilen
    exact Option.map_eq_none'.mp (h i (by rw [mem_range'_iff]; omega))
  · intro h i hi
    rw [mem_range'_iff] at hi
    rw [h i hi.1 (by omega)]; rfl

theorem interpAt_eq_none (ys : List (Option ℚ)) (j : Nat)
    (h : ∀ i, ys.getD i none = none) : interpAt ys j = none := by
  have h1 : lastObsBefore ys j = none :=
    (lastObsBefore_eq_none_iff ys j).mpr (fun i _ => h i)
  have h2 : firstObsFrom ys (j + 1) = none :=
    (firstObsFrom_eq_none_iff ys (j + 1)).mpr (fun i _ _ => h i)
  unfold interpAt
  rw [h j, h1, h2]

theorem interpAt_isSome (ys : List (Option ℚ)) (i0 : Nat)
    (h0 : (ys.getD i0 none).isSome = true) (j : Nat) : (interpAt ys j).isSome = true := by
  unfold interpAt
  cases hj : ys.getD j none with
  | some v => rfl
  | none =>
    cases hl : lastObsBefore ys j with
    | some p =>
      obtain ⟨i, v⟩ := p
      cases hf : firstObsFrom ys (j + 1) with
      | some q => obtain ⟨k, w⟩ := q; rfl
      | none => rfl
    | none =>
      cases hf : firstObsFrom ys (j + 1) with
      | some q => obtain ⟨k, w⟩ := q; rfl
      | none =>
        exfalso
        have hall : ∀ i, ys.getD i none = none := by
          intro i
          rcases Nat.lt_trichotomy i j with hij | rfl | hji
          · exact (lastObsBefore_eq_none_iff ys j).mp hl i hij
          · exact hj
          · by_cases hlen : i < ys.length
            · exact (firstObsFrom_eq_none_iff ys (j + 1)).mp hf i (by omega) hlen
            · exact getD_eq_none_of_le ys i (by omega)
        rw [hall i0] at h0
        simp at h0

theorem length_interpolateColumn (ys : List (Option ℚ)) :
    (interpolateColumn ys).length = ys.length := by
  unfold interpolateColumn
  rw [List.length_map, List.length_range]

theorem interpolateColumn_getD (ys : List (Option ℚ)) (j : Nat) (hj : j < ys.length) :
    (interpolateColumn ys).getD j none = interpAt ys j := by
  unfold interpolateColumn
  rw [List.getD_eq_getElem?_getD, List.getElem?_map, List.getElem?_range hj]
  rfl

theorem interpolateColumn_all_isSome (ys : List (Option ℚ)) (i0 : Nat)
    (h0 : (ys.getD i0 none).isSome = true) :
    ∀ o ∈ interpolateColumn ys, o.isSome = true := by
  intro o ho
  unfold interpolateColumn at ho
  rw [List.mem_map] at ho
  obtain ⟨j, _, rfl⟩ := ho
  exact interpAt_isSome ys i0 h0 j

theorem exists_isSome_of_interpAt (ys : List (Option ℚ)) (j : Nat)
    (h : (interpAt ys j).isSome = true) : ∃ i, (ys.getD i none).isSome = true := by
  by_contra hc
  have hall : ∀ i, ys.getD i none = none := by
    intro i
    cases hgi : ys.getD i none with
    | none => rfl
    | some v => exact absurd ⟨i, by rw [hgi]; rfl⟩ hc
  rw [interpAt_eq_none ys j hall] at h
  simp at h

/-! Lemmas about association lists, reassoc and posOf. -/

theorem reassoc_cons (m0 : Nat) (idx : List Nat) (z : Option ℚ) (zs : List (Option ℚ)) :
    reassoc (m0 :: idx) (z :: zs) =
      (match z with
       | some v => (m0, v) :: reassoc idx zs
       | none => reassoc idx zs) := by
  cases z <;> rfl

theorem lookupA_reassoc_isSome :
    ∀ (idx : List Nat) (zs : List (Option ℚ)), idx.length ≤ zs.length →
      (∀ o ∈ zs, o.isSome = true) → ∀ m ∈ idx, (lookupA m (reassoc idx zs)).isSome = true := by
  intro idx
  induction idx with
  | nil => intro zs _ _ m hm; simp at hm
  | cons m0 idx' ih =>
    intro zs hlen hall m hm
    cases zs with
    | nil => simp at hlen
    | cons z zs' =>
      obtain ⟨v, rfl⟩ := Option.isSome_iff_exists.mp (hall z (by simp))
      rw [reassoc_cons]
      by_cases hmm0 : m = m0
      · simp [lookupA, hmm0]
      · have hm' : m ∈ idx' := by
          rcases List.mem_cons.mp hm with h | h
          · exact absurd h hmm0
          · exact h
        simp only [lookupA, if_neg hmm0]
        exact ih zs' (by simpa using hlen)
          (fun o ho => hall o (List.mem_cons_of_mem _ ho)) m hm'

theorem exists_isSome_of_reassoc_ne_nil (idx : List Nat) (zs : List (Option ℚ))
    (h : reassoc idx zs ≠ []) : ∃ o ∈ zs, o.isSome = true := by
  by_contra hc
  push_neg at hc
  apply h
  unfold reassoc
  rw [List.filterMap_eq_nil_iff]
  intro p hp
  have h2 := (List.of_mem_zip hp).2
  have : p.2 = none := by
    cases hp2 : p.2 with
    | none => rfl
    | some v => exact absurd (by rw [hp2]; rfl) (hc p.2 h2)
  rw [this]
  rfl

theorem lookupA_map_snd {A B : Type} (f : A → B) (c : String) :
    ∀ (l : List (String × A)),
      lookupA c (l.map (fun p => (p.1, f p.2))) = (lookupA c l).map f := by
  intro l
  induction l with
  | nil => rfl
  | cons p r ih =>
    show lookupA c ((p.1, f p.2) :: _) = _
    by_cases hc : c = p.1
    · simp [lookupA, hc]
    · simp [lookupA, hc, ih]

/-- Interpolation fills a column completely: if a column of the interpolated
table has any stored cell at all, then it has a value at every index row. -/
theorem interpolated_cell_isSome (W : DF) (c : String) (s : List (Nat × ℚ))
    (hc : lookupA c (interpolateTable W).cols = some s) (hne : s ≠ [])
    (m : Nat) (hm : m ∈ (interpolateTable W).index) :
    ((interpolateTable W).cell c m).isSome = true := by
  have h1 := lookupA_map_snd
    (fun s0 => reassoc W.index (interpolateColumn (posOf W.index s0))) c W.cols
  have hc' : (Option.map (fun s0 => reassoc W.index (interpolateColumn (posOf W.index s0)))
      (lookupA c W.cols)) = some s := by
    rw [← h1]; exact hc
  obtain ⟨s0, hs0, hss⟩ := Option.map_eq_some'.mp hc'
  subst hss
  obtain ⟨o, ho, hos⟩ := exists_isSome_of_reassoc_ne_nil _ _ hne
  have ho' : o ∈ (List.range (posOf W.index s0).length).map (interpAt (posOf W.index s0)) := ho
  obtain ⟨j, hjmem, hjeq⟩ := List.mem_map.mp ho'
  obtain ⟨i0, hi0⟩ := exists_isSome_of_interpAt (posOf W.index s0) j (by rw [hjeq]; exact hos)
  have hall := interpolateColumn_all_isSome (posOf W.index s0) i0 hi0
  show ((lookupA c (interpolateTable W).cols).bind (fun s => lookupA m s)).isSome = true
  rw [hc]
  show (lookupA m (reassoc W.index (interpolateColumn (posOf W.index s0)))).isSome = true
  apply lookupA_reassoc_isSome W.index (interpolateColumn (posOf W.index s0))
    (by rw [length_interpolateColumn]; unfold posOf; rw [List.length_map]) hall m hm

/-- C1: in the final merged dataset, every column with at least one value has
no missing cell at any index row of the covered window range.  A column of
the interpolated output stores at least one cell exactly when the
pre-interpolation column had at least one real observation (interpolation of
an all-missing column yields an all-missing column), so the hypothesis
s ≠ [] states that the column contains at least one real observed value. -/
theorem c1_merged_no_missing
    (pin : PipelineInput) (T : DF) (hT : merge_all_data pin = .ok T)
    (c : String) (s : List (Nat × ℚ)) (hc : lookupA c T.cols = some s) (hne : s ≠ [])
    (m : Nat) (hm : m ∈ T.index) : (T.cell c m).isSome = true := by
  unfold merge_all_data at hT
  split at hT
  · exact Except.noConfusion hT
  · split at hT
    · exact Except.noConfusion hT
    · dsimp only at hT
      split at hT
      · exact Except.noConfusion hT
      · injection hT with h
        subst h
        exact interpolated_cell_isSome _ c s hc hne m hm

/-! Lemmas locating the nearest observations, for the boundary-fill
behaviour of the interpolation. -/

theorem findSome?_revRange {A : Type} (f : Nat → Option A) :
    ∀ (j i : Nat) (a : A), i < j → (∀ k, i < k → k < j → f k = none) → f i = some a →
      (List.range j).reverse.findSome? f = some a := by
  intro j
  induction j with
  | zero => intro i a h _ _; omega
  | succ n ih =>
    intro i a hij hmid hfi
    rw [List.range_succ, List.reverse_append]
    simp only [List.reverse_cons, List.reverse_nil, List.nil_append, List.singleton_append]
    rw [List.findSome?_cons]
    by_cases hin : i = n
    · subst hin; rw [hfi]
    · rw [hmid n (by omega) (by omega)]
      exact ih i a (by omega) (fun k hk1 hk2 => hmid k hk1 (by omega)) hfi

theorem findSome?_fwdRange {A : Type} (f : Nat → Option A) :
    ∀ (n s i : Nat) (a : A), s ≤ i → i < s + n →
      (∀ k, s ≤ k → k < i → f k = none) → f i = some a →
      (List.range' s n).findSome? f = some a := by
  intro n
  induction n with
  | zero => intro s i a h1 h2 _ _; omega
  | succ n ih =>
    intro s i a hsi hin hmid hfi
    rw [List.range'_succ, List.findSome?_cons]
    by_cases his : i = s
    · subst his; rw [hfi]
    · rw [hmid s (Nat.le_refl s) (by omega)]
      exact ih (s + 1) i a (by omega) (by omega) (fun k hk1 hk2 => hmid k (by omega) hk2) hfi

theorem lastObsBefore_eq_last (ys : List (Option ℚ)) (i : Nat) (v : ℚ) (j : Nat)
    (hij : i < j) (hiv : ys.getD i none = some v)
    (hmid : ∀ k, i < k → k < j → ys.getD k none = none) :
    lastObsBefore ys j = some (i, v) := by
  unfold lastObsBefore
  apply findSome?_revRange _ j i (i, v) hij
  · intro k h1 h2; rw [hmid k h1 h2]; rfl
  · rw [hiv]; rfl

theorem firstObsFrom_eq_first (ys : List (Option ℚ)) (i : Nat) (v : ℚ) (j : Nat)
    (hji : j ≤ i) (hil : i < ys.length) (hiv : ys.getD i none = some v)
    (hmid : ∀ k, j ≤ k → k < i → ys.getD k none = none) :
    firstObsFrom ys j = some (i, v) := by
  unfold firstObsFrom
  apply findSome?_fwdRange _ (ys.length - j) j i (i, v) hji (by omega)
  · intro k h1 h2; rw [hmid k h1 h2]; rfl
  · rw [hiv]; rfl

/-- C2 amended: a missing cell beyond the last observation of a column takes
the value of that last observation itself (constant extension), and a missing
cell before the first observation takes the value of that first observation
itself - not a straight-line extrapolation of the nearest trend. -/
theorem c2_boundary_constant_fill (ys : List (Option ℚ)) (i : Nat) (v : ℚ)
    (hi : i < ys.length) (hv : ys.getD i none = some v) :
    ((∀ k, i < k → k < ys.length → ys.getD k none = none) →
      ∀ j, i < j → j < ys.length → (interpolateColumn ys).getD j none = some v)
    ∧ ((∀ k, k < i → ys.getD k none = none) →
      ∀ j, j < i → (interpolateColumn ys).getD j none = some v) := by
  constructor
  · intro hlast j hij hjl
    rw [interpolateColumn_getD ys j hjl]
    unfold interpAt
    rw [hlast j hij hjl,
      lastObsBefore_eq_last ys i v j hij hv (fun k h1 h2 => hlast k h1 (by omega)),
      (firstObsFrom_eq_none_iff ys (j + 1)).mpr (fun k hk1 hk2 => hlast k (by omega) hk2)]
  · intro hfirst j hji
    have hjl : j < ys.length := by omega
    rw [interpolateColumn_getD ys j hjl]
    unfold interpAt
    rw [hfirst j hji,
      (lastObsBefore_eq_none_iff ys j).mpr (fun k hk => hfirst k (by omega)),
      firstObsFrom_eq_first ys i v (j + 1) (by omega) hi hv (fun k _ hk2 => hfirst k hk2)]

/-! Concrete pipeline inputs used by counterexamples and witnesses. -/

/-- The scraped energy row of the spec's concrete scenario:
["Oct-2023", "10/02", "3.801", "10/09", "3.750"]. -/
def c7row : List (Option String) :=
  [some "Oct-2023", some "10/02", some "3.801", some "10/09", some "3.750"]

/-- A CPI payload with a single one-month series (January 2020, value 100). -/
def cpiOneMonth : CPIFile := .wellFormed [⟨"X", [⟨2020, "M01", 100⟩]⟩]

/-- Scraped gasoline rows with one point in January 2020 (price 1.0) and one
in February 2020 (price 3.0). -/
def gasTwoMonths : List (List (Option String)) :=
  [[some "Jan-2020", some "01/06", some "1.0"],
   [some "Feb-2020", some "02/03", some "3.0"]]

/-- One news document published in April 2020 (month 24243) with no keyword
occurrences, extending the merged index two months past the last gas
observation. -/
def newsApr2020 : List Article := [⟨some 24243, some "hello", none⟩]

/-- A pipeline input whose merged table has a Gas_Price column observed in
January and February 2020 and missing in April 2020. -/
def pinTrailingGap : PipelineInput :=
  ⟨some cpiOneMonth, some gasTwoMonths, none, none, none, none, none, some newsApr2020⟩

/-- Cell of the final merged dataset, none when the merge fails. -/
def mergedCell (pin : PipelineInput) (c : String) (m : Nat) : Option ℚ :=
  match merge_all_data pin with
  | .ok T => T.cell c m
  | .error _ => none

/-- The final merged dataset of a run, the empty frame when the merge
fails. -/
def mergedOf (pin : PipelineInput) : DF :=
  match merge_all_data pin with
  | .ok T => T
  | .error _ => DF.empty

/-- C2 counterexample: in the run pinTrailingGap the Gas_Price column has its
last two observations 1.0 (January 2020, row position 0) and 3.0 (February
2020, row position 1), and the merged index ends with April 2020 (row
position 2) where Gas_Price is missing before gap-filling.  Linear
extrapolation of the straight-line estimate of the nearest available values
would give 5 (one row step beyond) or 7 (two calendar months beyond); the
code fills the cell with the nearest observed value 3 instead. -/
theorem c2_counterexample :
    (clean_energy_data (some gasTwoMonths) none none).cell "Gas_Price" 24240 = some 1
    ∧ (clean_energy_data (some gasTwoMonths) none none).cell "Gas_Price" 24241 = some 3
    ∧ (mergedOf pinTrailingGap).index = [24240, 24241, 24243]
    ∧ mergedCell pinTrailingGap "Gas_Price" 24243 = some 3
    ∧ (3 : ℚ) ≠ 5 ∧ (3 : ℚ) ≠ 7 := by
  refine ⟨by decide, by decide, by decide, by decide, by decide, by decide⟩

/-- Witness for the amended C2 theorem: the column [some 1, some 3, none] has
its last observation 3 at position 1, and the trailing missing position 2 is
filled with 3. -/
theorem c2_boundary_constant_fill_witness :
    (interpolateColumn [some 1, some 3, none]).getD 2 none = some 3 :=
  (c2_boundary_constant_fill [some 1, some 3, none] 1 3 (by decide) (by decide)).1
    (by intro k h1 h2; have h2' : k < 3 := h2; have hk : k = 2 := (by omega); subst hk; rfl)
    2 (by decide) (by decide)

/-- Witness for C1: in the merged run pinTrailingGap, the Gas_Price column
(which has observations) has a value at the trailing index month 24243. -/
theorem c1_merged_no_missing_witness :
    ((mergedOf pinTrailingGap).cell "Gas_Price" 24243).isSome = true :=
  c1_merged_no_missing pinTrailingGap (mergedOf pinTrailingGap) (by rfl)
    "Gas_Price" ((lookupA "Gas_Price" (mergedOf pinTrailingGap).cols).getD []) (by rfl)
    (by decide) 24243 (by decide)

/-- C7: the ragged row ["Oct-2023", "10/02", "3.801", "10/09", "3.750"]
yields exactly the two points 2023-10-02 (month 24285, day 2) with 3.801 and
2023-10-09 with 3.750; appending a trailing unpaired token changes nothing;
and the monthly resample of October 2023 is their average 3.7755. -/
theorem c7_ragged_row :
    parseRowPairs c7row = [(some (24285, 2), 3801/1000), (some (24285, 9), 3750/1000)]
    ∧ parseRowPairs (c7row ++ [some "10/16"]) = parseRowPairs c7row
    ∧ (clean_energy_data (some [c7row]) none none).cell "Gas_Price" 24285
        = some (37755/10000) := by
  refine ⟨by decide, by decide, by decide⟩

/-- C6 (the code bug): when the CPI raw file is missing or its top-level
nesting is malformed, clean_cpi_data itself returns the no-data result None
without raising - but merge_all_data then evaluates None.empty in its
filtering comprehension and crashes with AttributeError, even though the
energy source produced a non-empty table, so the remaining sources are never
merged. -/
theorem c6_cpi_missing_crashes_merge :
    clean_cpi_data none = Except.ok none
    ∧ clean_cpi_data (some .malformed) = Except.ok none
    ∧ (clean_energy_data (some gasTwoMonths) none none).isEmpty = false
    ∧ merge_all_data ⟨none, some gasTwoMonths, none, none, none, none, none, none⟩
        = Except.error PyErr.attributeError
    ∧ merge_all_data ⟨some .malformed, some gasTwoMonths, none, none, none, none, none, none⟩
        = Except.error PyErr.attributeError := by
  refine ⟨rfl, rfl, by decide, by decide, by decide⟩

/-- C10: a CPI payload whose top-level structure is valid but which yields no
month record at all reaches df.pivot on an empty, column-less frame, which
raises KeyError instead of returning a no-data result. -/
theorem c10_empty_records_pivot_error (ss : List CPISeries) (h : cpiRecords ss = []) :
    clean_cpi_data (some (.wellFormed ss)) = Except.error PyErr.keyError := by
  simp [clean_cpi_data, h]

/-- Witness for C10: a payload with one series holding only the annual code
M13 has a valid nesting, zero month records, and makes the parser raise. -/
theorem c10_empty_records_pivot_error_witness :
    clean_cpi_data (some (.wellFormed [⟨"S", [⟨2016, "M13", 5⟩]⟩]))
      = Except.error PyErr.keyError :=
  c10_empty_records_pivot_error [⟨"S", [⟨2016, "M13", 5⟩]⟩] (by decide)

/-- C5: when every per-source table is empty (the CPI cleaner returns no
table - it can only return None or raise, never an empty frame - and the
three other cleaners return empty frames), merge_all_data produces an error
and no final dataset: a returned error is a run that writes no output file
and fails loudly rather than emitting an empty or placeholder file. -/
theorem c5_all_empty_merge_fails (pin : PipelineInput)
    (h1 : ∀ t : DF, clean_cpi_data pin.cpi ≠ Except.ok (some t))
    (h2 : (clean_energy_data pin.gas pin.diesel pin.oil).isEmpty = true)
    (h3 : (clean_labor_data pin.laborTotal pin.laborMen pin.laborWomen).isEmpty = true)
    (h4 : (clean_news_data pin.news).isEmpty = true) :
    ∃ e, merge_all_data pin = Except.error e := by
  rcases hcpi : clean_cpi_data pin.cpi with e | odf
  · exact ⟨e, by unfold merge_all_data; rw [hcpi]⟩
  · rcases odf with _ | t
    · exact ⟨.attributeError, by unfold merge_all_data; rw [hcpi]⟩
    · exact absurd hcpi (h1 t)

/-- The pipeline input with every raw file absent. -/
def pinAllNone : PipelineInput := ⟨none, none, none, none, none, none, none, none⟩

/-- Witness for C5: with every raw file absent all four tables are empty and
the merge fails. -/
theorem c5_all_empty_merge_fails_witness :
    ∃ e, merge_all_data pinAllNone = Except.error e :=
  c5_all_empty_merge_fails pinAllNone
    (by intro t h; simp [clean_cpi_data, pinAllNone] at h) rfl rfl rfl

/-- Cell of the table returned by clean_cpi_data, none when the parser
returned no table or raised. -/
def cpiCell (i : Option CPIFile) (c : String) (m : Nat) : Option ℚ :=
  match clean_cpi_data i with
  | .ok (some t) => t.cell c m
  | _ => none

/-- The CPI payload of the C3 counterexample: a single series X observed in
2016-01 (value 100), 2016-03 through 2016-12 (value 101), and 2017-01
(value 102) - twelve months with February 2016 missing, so 2017-01 sits at
row position 11 while 2016-01 sits at row position 0. -/
def cpiGapFile : CPIFile := .wellFormed
  [⟨"X",
    [⟨2016, "M01", 100⟩,
     ⟨2016, "M03", 101⟩, ⟨2016, "M04", 101⟩, ⟨2016, "M05", 101⟩,
     ⟨2016, "M06", 101⟩, ⟨2016, "M07", 101⟩, ⟨2016, "M08", 101⟩,
     ⟨2016, "M09", 101⟩, ⟨2016, "M10", 101⟩, ⟨2016, "M11", 101⟩,
     ⟨2016, "M12", 101⟩,
     ⟨2017, "M01", 102⟩]⟩]

/-- C3 counterexample: for the valid nested-series input cpiGapFile the
values of X at 2017-01 (month 24204) and exactly 12 calendar months earlier
at 2016-01 (month 24192) are both non-missing, and the claim's formula gives
(102 - 100) / 100 * 100 = 2; but the derived X_YoY value at 2017-01 is
missing, because pct_change(12) compares with the row 12 positions earlier
and 2017-01 is only the twelfth row of the gapped index. -/
theorem c3_counterexample :
    cpiCell (some cpiGapFile) "X" 24204 = some 102
    ∧ cpiCell (some cpiGapFile) "X" 24192 = some 100
    ∧ (24204 : Nat) = 24192 + 12
    ∧ ((102 - 100 : ℚ) / 100 * 100) = 2
    ∧ cpiCell (some cpiGapFile) "X_YoY" 24204 = none := by
  refine ⟨by decide, by decide, by decide, by decide, by decide⟩

/-! Lemmas for keyword counting (C8). -/

theorem toNat_ofNat_small (n : Nat) (h : n < 0xd800) : (Char.ofNat n).toNat = n := by
  unfold Char.ofNat
  rw [dif_pos (Or.inl h : n.isValidChar)]
  rfl

theorem char_toLower_idem (c : Char) : c.toLower.toLower = c.toLower := by
  unfold Char.toLower
  by_cases h : c.toNat ≥ 65 ∧ c.toNat ≤ 90
  · rw [if_pos h]
    have hv : (Char.ofNat (c.toNat + 32)).toNat = c.toNat + 32 :=
      toNat_ofNat_small _ (by omega)
    rw [if_neg (by rw [hv]; omega)]
  · simp only [if_neg h]

theorem map_toLower_idem (l : List Char) :
    (l.map Char.toLower).map Char.toLower = l.map Char.toLower := by
  rw [List.map_map]
  exact List.map_congr_left (fun a _ => char_toLower_idem a)

theorem listStartsWith_iff (p : List Char) :
    ∀ s, listStartsWith p s = true ↔ ∃ r, s = p ++ r := by
  induction p with
  | nil => intro s; simp [listStartsWith]
  | cons a p ih =>
    intro s
    cases s with
    | nil => simp [listStartsWith]
    | cons b s' =>
      simp only [listStartsWith, Bool.and_eq_true, beq_iff_eq]
      constructor
      · rintro ⟨rfl, h2⟩
        obtain ⟨r, rfl⟩ := (ih s').mp h2
        exact ⟨r, rfl⟩
      · rintro ⟨r, hr⟩
        injection hr with h1 h2
        exact ⟨h1.symm, (ih s').mpr ⟨r, h2⟩⟩

theorem occursIn_iff (p : List Char) :
    ∀ s, occursIn p s = true ↔ ∃ l r, s = l ++ p ++ r := by
  intro s
  induction s with
  | nil =>
    show listStartsWith p [] = true ↔ _
    rw [listStartsWith_iff]
    constructor
    · rintro ⟨r, hr⟩; exact ⟨[], r, by simpa using hr⟩
    · rintro ⟨l, r, hr⟩
      have h0 : l ++ (p ++ r) = [] := by simpa [List.append_assoc] using hr.symm
      rcases List.append_eq_nil.mp h0 with ⟨rfl, h1⟩
      rcases List.append_eq_nil.mp h1 with ⟨rfl, rfl⟩
      exact ⟨[], rfl⟩
  | cons c cs ih =>
    simp only [occursIn, Bool.or_eq_true]
    constructor
    · rintro (h | h)
      · obtain ⟨r, hr⟩ := (listStartsWith_iff p _).mp h
        exact ⟨[], r, by simpa using hr⟩
      · obtain ⟨l, r, hr⟩ := ih.mp h
        exact ⟨c :: l, r, by rw [hr]; rfl⟩
    · rintro ⟨l, r, hr⟩
      cases l with
      | nil => exact Or.inl ((listStartsWith_iff p _).mpr ⟨r, by simpa using hr⟩)
      | cons x l' =>
        refine Or.inr (ih.mpr ⟨l', r, ?_⟩)
        have h2 := congrArg List.tail hr
        simpa using h2

/-- The un-lowercased concatenation headline + " " + snippet of a document
(absent fields as empty strings). -/
def combinedChars (a : Article) : List Char :=
  ((a.headline.getD "") ++ " " ++ (a.snippet.getD "")).data

/-- C8: the keyword indicator of a document is 1 exactly when the keyword
occurs as a literal case-insensitive substring of the combined
headline-and-snippet text (both sides compared lower-cased), and a matching
document increments the keyword's count for its publication month. -/
theorem c8_keyword_counting :
    (∀ (a : Article) (kw : String),
      indicator a kw = 1 ↔
        ∃ l r, (combinedChars a).map Char.toLower = l ++ kw.data.map Char.toLower ++ r)
    ∧ (∀ (a : Article) (arts : List Article) (m : Nat),
        a.date = some m → inWindow m = true → indicator a "inflation" = 1 →
        monthlyCount (a :: arts) "inflation" m = monthlyCount arts "inflation" m + 1) := by
  constructor
  · intro a kw
    unfold indicator
    rw [show fullTextChars a = (combinedChars a).map Char.toLower from rfl, map_toLower_idem]
    constructor
    · intro h
      by_cases hc : occursIn (kw.data.map Char.toLower) ((combinedChars a).map Char.toLower) = true
      · exact (occursIn_iff _ _).mp hc
      · rw [if_neg hc] at h
        exact absurd h (by norm_num)
    · intro hex
      rw [if_pos ((occursIn_iff _ _).mpr hex)]
  · intro a arts m hdate hwin hind
    unfold monthlyCount survivors
    rw [List.filter_cons, if_pos (by rw [hdate]; exact hwin),
      List.filter_cons, if_pos (by simp [hdate]),
      List.map_cons, List.sum_cons, hind]
    ring

/-- A document whose headline contains "INFLATION concerns", published in
month 24250 (November 2020). -/
def inflationDoc : Article := ⟨some 24250, some "INFLATION concerns", none⟩

/-- Witness for C8: the upper-case document increments the inflation count of
its month. -/
theorem c8_keyword_counting_witness :
    monthlyCount [inflationDoc] "inflation" 24250 = monthlyCount [] "inflation" 24250 + 1 :=
  c8_keyword_counting.2 inflationDoc [] 24250 rfl (by decide) (by decide)

/-! Lemmas about index sortedness and uniqueness (C9). -/

theorem pairwise_lt_of_sorted_nodup {l : List Nat}
    (hs : List.Sorted (· ≤ ·) l) (hn : l.Nodup) : List.Pairwise (· < ·) l :=
  (List.Pairwise.and hs hn).imp (fun h => lt_of_le_of_ne h.1 h.2)

theorem sortedDedup_pairwise (l : List Nat) : List.Pairwise (· < ·) (sortedDedup l) :=
  pairwise_lt_of_sorted_nodup (List.sorted_insertionSort _ _)
    (((List.perm_insertionSort _ l.dedup).symm).nodup (List.nodup_dedup l))

theorem combineSource_pairwise (acc : DF) (o : Option DF)
    (hacc : List.Pairwise (· < ·) acc.index)
    (ho : ∀ d, o = some d → List.Pairwise (· < ·) d.index) :
    List.Pairwise (· < ·) (combineSource acc o).index := by
  cases o with
  | none => exact hacc
  | some d =>
    show List.Pairwise (· < ·) (if acc.isEmpty then d else joinOuter acc d).index
    by_cases he : acc.isEmpty
    · rw [if_pos he]; exact ho d rfl
    · rw [if_neg he]; exact sortedDedup_pairwise _

theorem resampleMS_pairwise (pts : List (Nat × ℚ)) (name : String) :
    List.Pairwise (· < ·) (resampleMS pts name).index := by
  unfold resampleMS
  cases pts with
  | nil => simp
  | cons p rest => exact List.pairwise_lt_range' _ _

theorem energyMeasure_pairwise (input : Option (List (List (Option String))))
    (name : String) (d : DF) (h : energyMeasure input name = some d) :
    List.Pairwise (· < ·) d.index := by
  cases input with
  | none => exact Option.noConfusion h
  | some rows =>
    unfold energyMeasure at h
    dsimp only at h
    by_cases hp : (rows.flatMap parseRowPairs).isEmpty
    · rw [if_pos hp] at h; exact Option.noConfusion h
    · rw [if_neg hp] at h
      injection h with h
      subst h
      exact resampleMS_pairwise _ _

theorem laborMeasure_pairwise (input : Option (List LaborRow)) (name : String) (d : DF)
    (h : laborMeasure input name = some d)
    (hnd : ∀ rows, input = some rows → ((laborPts rows).map (fun q => q.1)).Nodup) :
    List.Pairwise (· < ·) d.index := by
  cases input with
  | none => exact Option.noConfusion h
  | some rows =>
    injection h with h
    subst h
    exact pairwise_lt_of_sorted_nodup (List.sorted_insertionSort _ _)
      (((List.perm_insertionSort _ _).symm).nodup (hnd rows rfl))

theorem final_sort_window_pairwise (c : DF) (h : List.Pairwise (· < ·) c.index) :
    List.Pairwise (· < ·) (sortIndexDF (windowRestrict c)).index := by
  apply pairwise_lt_of_sorted_nodup (List.sorted_insertionSort _ _)
  apply ((List.perm_insertionSort _ _).symm).nodup
  exact (h.imp (fun hab => ne_of_lt hab)).filter _

theorem nodup_filterMap_on {α β : Type} (f : α → Option β) :
    ∀ (l : List α), l.Nodup →
      (∀ a ∈ l, ∀ a' ∈ l, ∀ b, f a = some b → f a' = some b → a = a') →
      (l.filterMap f).Nodup := by
  intro l
  induction l with
  | nil => intro _ _; simp
  | cons a r ih =>
    intro hnd hinj
    rcases List.nodup_cons.mp hnd with ⟨hna, hndr⟩
    rw [List.filterMap_cons]
    cases hfa : f a with
    | none =>
      exact ih hndr (fun x hx y hy b h1 h2 =>
        hinj x (List.mem_cons_of_mem _ hx) y (List.mem_cons_of_mem _ hy) b h1 h2)
    | some b =>
      rw [List.nodup_cons]
      refine ⟨?_, ih hndr (fun x hx y hy b' h1 h2 =>
        hinj x (List.mem_cons_of_mem _ hx) y (List.mem_cons_of_mem _ hy) b' h1 h2)⟩
      intro hmem
      obtain ⟨a', ha'r, hfa'⟩ := List.mem_filterMap.mp hmem
      have ha : a = a' :=
        hinj a (List.mem_cons_self _ _) a' (List.mem_cons_of_mem _ ha'r) b hfa hfa'
      subst ha
      exact hna ha'r

/-- The twelve canonical zero-padded month period codes. -/
def monthPeriodsCanon : List String :=
  ["M01", "M02", "M03", "M04", "M05", "M06",
   "M07", "M08", "M09", "M10", "M11", "M12"]

theorem monthNum_canonical_inj :
    ∀ p ∈ monthPeriodsCanon, ∀ p' ∈ monthPeriodsCanon,
      monthNum p = monthNum p' → p = p' := by decide

theorem monthNum_range (p : String) (n : Nat) (h : monthNum p = some n) :
    1 ≤ n ∧ n ≤ 12 := by
  unfold monthNum at h
  cases hd : digitsVal? (p.data.drop 1) with
  | none => rw [hd] at h; exact Option.noConfusion h
  | some k =>
    rw [hd] at h
    dsimp only at h
    by_cases hr : 1 ≤ k ∧ k ≤ 12
    · rw [if_pos hr] at h
      injection h with h
      subst h
      exact hr
    · rw [if_neg hr] at h
      exact Option.noConfusion h

theorem cpiPivot_index_pairwise (recs : List CPIRecord)
    (hcanon : ∀ r ∈ recs, r.period ∈ monthPeriodsCanon) :
    List.Pairwise (· < ·) (cpiPivot recs).index := by
  apply pairwise_lt_of_sorted_nodup (List.sorted_insertionSort _ _)
  apply ((List.perm_insertionSort _ _).symm).nodup
  apply nodup_filterMap_on _ _ (List.nodup_dedup _)
  intro k hk k' hk' b h1 h2
  obtain ⟨n, hn, hb⟩ := Option.map_eq_some'.mp h1
  obtain ⟨n', hn', hb'⟩ := Option.map_eq_some'.mp h2
  obtain ⟨r, hr, hrk⟩ := List.mem_map.mp (List.mem_dedup.mp hk)
  obtain ⟨r', hr', hrk'⟩ := List.mem_map.mp (List.mem_dedup.mp hk')
  have hcan : k.2 ∈ monthPeriodsCanon := by
    rw [← hrk]; exact hcanon r hr
  have hcan' : k'.2 ∈ monthPeriodsCanon := by
    rw [← hrk']; exact hcanon r' hr'
  obtain ⟨hn1, hn2⟩ := monthNum_range _ _ hn
  obtain ⟨hn1', hn2'⟩ := monthNum_range _ _ hn'
  have hyy : k.1 = k'.1 ∧ n = n' := by
    constructor <;> omega
  have hp : k.2 = k'.2 :=
    monthNum_canonical_inj k.2 hcan k'.2 hcan' (by rw [hn, hn', hyy.2])
  exact Prod.ext hyy.1 hp

/-- C9 amended: the month index of every table returned by clean_cpi_data
(for payloads with canonical zero-padded period codes), of every table
returned by clean_energy_data, and of every table returned by
clean_labor_data whose present measures have no duplicated (year, month)
cell, is strictly increasing (hence has no duplicate months).  For the labor
parser the no-duplicate hypothesis is necessary: a measure file with a
repeated Year row yields a duplicated index (see the counterexample). -/
theorem c9_sorted_unique_index :
    (∀ (ss : List CPISeries) (df : DF), canonicalPeriods ss →
      clean_cpi_data (some (.wellFormed ss)) = Except.ok (some df) →
      List.Chain' (· < ·) df.index)
    ∧ (∀ g d o, List.Chain' (· < ·) (clean_energy_data g d o).index)
    ∧ (∀ lt lm lw,
        (∀ rows, lt = some rows → ((laborPts rows).map (fun q => q.1)).Nodup) →
        (∀ rows, lm = some rows → ((laborPts rows).map (fun q => q.1)).Nodup) →
        (∀ rows, lw = some rows → ((laborPts rows).map (fun q => q.1)).Nodup) →
        List.Chain' (· < ·) (clean_labor_data lt lm lw).index) := by
  refine ⟨?_, ?_, ?_⟩
  · intro ss df hcanon h
    rw [List.chain'_iff_pairwise]
    simp only [clean_cpi_data] at h
    split at h
    · exact Except.noConfusion h
    · split at h
      · exact Except.noConfusion h
      · split at h
        · exact Except.noConfusion h
        · injection h with h
          injection h with h
          subst h
          exact cpiPivot_index_pairwise _ hcanon
  · intro g d o
    rw [List.chain'_iff_pairwise]
    unfold clean_energy_data
    dsimp only
    have hcp : List.Pairwise (· < ·)
        (combineSource (combineSource (combineSource DF.empty
          (energyMeasure g "Gas_Price")) (energyMeasure d "Diesel_Price"))
          (energyMeasure o "Oil_Price")).index := by
      apply combineSource_pairwise _ _ ?_ (fun dd hdd => energyMeasure_pairwise _ _ dd hdd)
      apply combineSource_pairwise _ _ ?_ (fun dd hdd => energyMeasure_pairwise _ _ dd hdd)
      apply combineSource_pairwise _ _ ?_ (fun dd hdd => energyMeasure_pairwise _ _ dd hdd)
      simp [DF.empty]
    split
    · simp [DF.empty]
    · exact final_sort_window_pairwise _ hcp
  · intro lt lm lw h1 h2 h3
    rw [List.chain'_iff_pairwise]
    unfold clean_labor_data
    dsimp only
    have hcp : List.Pairwise (· < ·)
        (combineSource (combineSource (combineSource DF.empty
          (laborMeasure lt "Unemp_Total")) (laborMeasure lm "Unemp_Men"))
          (laborMeasure lw "Unemp_Women")).index := by
      apply combineSource_pairwise _ _ ?_
        (fun dd hdd => laborMeasure_pairwise _ _ dd hdd h3)
      apply combineSource_pairwise _ _ ?_
        (fun dd hdd => laborMeasure_pairwise _ _ dd hdd h2)
      apply combineSource_pairwise _ _ ?_
        (fun dd hdd => laborMeasure_pairwise _ _ dd hdd h1)
      simp [DF.empty]
    split
    · exact hcp
    · exact final_sort_window_pairwise _ hcp

/-- A labor file with a repeated Year row: two rows both for 2020 with a Jan
cell. -/
def dupYearLabor : List LaborRow :=
  [(2020, [("Jan", some 5)]), (2020, [("Jan", some 6)])]

/-- C9 counterexample: a labor measure file with a duplicated Year row is
accepted by clean_labor_data, yet the returned table's index contains
January 2020 (month 24240) twice - neither unique nor strictly
increasing. -/
theorem c9_counterexample :
    (clean_labor_data (some dupYearLabor) none none).index = [24240, 24240]
    ∧ ¬ List.Chain' (· < ·) ([24240, 24240] : List Nat)
    ∧ ¬ ([24240, 24240] : List Nat).Nodup := by
  refine ⟨by decide, ?_, by decide⟩
  intro hc
  rw [List.chain'_cons] at hc
  exact absurd hc.1 (lt_irrefl _)

/-- A canonical single-series CPI payload for the C9 witness. -/
def cpiOneSS : List CPISeries := [⟨"X", [⟨2020, "M01", 100⟩, ⟨2020, "M02", 101⟩]⟩]

/-- Witness for C9: the three parsers on concrete accepted inputs produce
strictly increasing indices. -/
theorem c9_sorted_unique_index_witness :
    List.Chain' (· < ·) (addYoY (cpiPivot (cpiRecords cpiOneSS))).index
    ∧ List.Chain' (· < ·) (clean_energy_data (some [c7row]) none none).index
    ∧ List.Chain' (· < ·) (clean_labor_data (some [(2020, [("Jan", some 5)])]) none none).index :=
  ⟨c9_sorted_unique_index.1 cpiOneSS (addYoY (cpiPivot (cpiRecords cpiOneSS)))
      (by decide) (by rfl),
   c9_sorted_unique_index.2.1 (some [c7row]) none none,
   c9_sorted_unique_index.2.2 (some [(2020, [("Jan", some 5)])]) none none
     (by intro rows h; injection h with h; subst h; decide)
     (by intro rows h; exact Option.noConfusion h)
     (by intro rows h; exact Option.noConfusion h)⟩

/-! Lemmas for the derived YoY columns (C3). -/

theorem lookupA_cons {κ β : Type} [DecidableEq κ] (k : κ) (x : κ × β) (r : List (κ × β)) :
    lookupA k (x :: r) = if k = x.1 then some x.2 else lookupA k r := by
  obtain ⟨a, b⟩ := x
  rfl

theorem lookupA_append_some {κ β : Type} [DecidableEq κ] (k : κ) {v : β}
    {l₁ : List (κ × β)} (l₂ : List (κ × β)) (h : lookupA k l₁ = some v) :
    lookupA k (l₁ ++ l₂) = some v := by
  induction l₁ with
  | nil => exact Option.noConfusion h
  | cons x r ih =>
    rw [List.cons_append, lookupA_cons]
    rw [lookupA_cons] at h
    by_cases hk : k = x.1
    · rw [if_pos hk]; rw [if_pos hk] at h; exact h
    · rw [if_neg hk]; rw [if_neg hk] at h; exact ih h

theorem lookupA_append_none {κ β : Type} [DecidableEq κ] (k : κ)
    {l₁ : List (κ × β)} (l₂ : List (κ × β)) (h : lookupA k l₁ = none) :
    lookupA k (l₁ ++ l₂) = lookupA k l₂ := by
  induction l₁ with
  | nil => rfl
  | cons x r ih =>
    rw [List.cons_append, lookupA_cons]
    rw [lookupA_cons] at h
    by_cases hk : k = x.1
    · rw [if_pos hk] at h; exact Option.noConfusion h
    · rw [if_neg hk]; rw [if_neg hk] at h; exact ih h

theorem string_append_right_cancel (a b suf : String) (h : a ++ suf = b ++ suf) : a = b := by
  apply String.ext
  have hd := congrArg String.data h
  rw [String.data_append, String.data_append] at hd
  exact List.append_cancel_right hd

theorem lookupA_suffix_map (c suf : String) (g : List (Nat × ℚ) → List (Nat × ℚ)) :
    ∀ (l : List (String × List (Nat × ℚ))),
      lookupA (c ++ suf) (l.map (fun p => (p.1 ++ suf, g p.2))) = (lookupA c l).map g := by
  intro l
  induction l with
  | nil => rfl
  | cons x r ih =>
    rw [List.map_cons, lookupA_cons, lookupA_cons]
    by_cases hk : c = x.1
    · rw [if_pos (by rw [hk]), if_pos hk]; rfl
    · rw [if_neg (fun hh => hk (string_append_right_cancel _ _ _ hh)), if_neg hk, ih]

theorem lookupA_reassoc_not_mem :
    ∀ (idx : List Nat) (zs : List (Option ℚ)) (m : Nat), m ∉ idx →
      lookupA m (reassoc idx zs) = none := by
  intro idx
  induction idx with
  | nil => intro zs m _; rfl
  | cons m0 idx' ih =>
    intro zs m hm
    cases zs with
    | nil => rfl
    | cons z zs' =>
      rw [reassoc_cons]
      cases z with
      | none => exact ih zs' m (fun hh => hm (List.mem_cons_of_mem _ hh))
      | some v =>
        rw [lookupA_cons, if_neg (fun hh => hm (by rw [hh]; exact List.mem_cons_self _ _))]
        exact ih zs' m (fun hh => hm (List.mem_cons_of_mem _ hh))

theorem posOf_reassoc :
    ∀ (idx : List Nat) (zs : List (Option ℚ)), idx.Nodup → zs.length = idx.length →
      posOf idx (reassoc idx zs) = zs := by
  intro idx
  induction idx with
  | nil =>
    intro zs _ hlen
    cases zs with
    | nil => rfl
    | cons z zs' => simp at hlen
  | cons m0 idx' ih =>
    intro zs hnd hlen
    cases zs with
    | nil => simp at hlen
    | cons z zs' =>
      rcases List.nodup_cons.mp hnd with ⟨hm0, hnd'⟩
      have hlen' : zs'.length = idx'.length := by simpa using hlen
      rw [reassoc_cons]
      cases z with
      | some v =>
        show (lookupA m0 ((m0, v) :: reassoc idx' zs')) ::
          idx'.map (fun m => lookupA m ((m0, v) :: reassoc idx' zs')) = some v :: zs'
        rw [lookupA_cons, if_pos rfl]
        congr 1
        rw [List.map_congr_left (fun m' hm' => by
          rw [lookupA_cons,
            if_neg (fun hh : m' = m0 => hm0 (hh ▸ hm'))])]
        exact ih zs' hnd' hlen'
      | none =>
        show (lookupA m0 (reassoc idx' zs')) ::
          idx'.map (fun m => lookupA m (reassoc idx' zs')) = none :: zs'
        rw [lookupA_reassoc_not_mem idx' zs' m0 hm0]
        congr 1
        exact ih zs' hnd' hlen'

theorem length_pctChange12 (xs : List (Option ℚ)) : (pctChange12 xs).length = xs.length := by
  unfold pctChange12
  rw [List.length_map, List.length_range]

theorem pctChange12_getD_lt12 (xs : List (Option ℚ)) (j : Nat) (hj : j < 12) :
    (pctChange12 xs).getD j none = none := by
  by_cases hl : j < xs.length
  · unfold pctChange12
    rw [List.getD_eq_getElem?_getD, List.getElem?_map, List.getElem?_range hl,
      Option.map_some', Option.getD_some]
    rw [if_pos hj]
  · exact getD_eq_none_of_le _ j (by rw [length_pctChange12]; omega)

theorem pctChange12_getD_ge (xs : List (Option ℚ)) (j : Nat) (v w : ℚ) (hj : 12 ≤ j)
    (hv : xs.getD j none = some v) (hw : xs.getD (j - 12) none = some w) :
    (pctChange12 xs).getD j none = some ((v - w) / w * 100) := by
  have hl : j < xs.length := by
    by_contra h
    rw [getD_eq_none_of_le xs j (by omega)] at hv
    exact Option.noConfusion hv
  unfold pctChange12
  rw [List.getD_eq_getElem?_getD, List.getElem?_map, List.getElem?_range hl,
    Option.map_some', Option.getD_some]
  rw [if_neg (by omega), hw, hv]

/-- C3 amended: the derived YoY column compares each row with the row 12
POSITIONS earlier in the sorted month index - not with the month 12 calendar
months earlier (the two agree only when the 12 preceding rows are contiguous
months).  For every payload with canonical period codes: the first 12 rows
of a derived column are missing, and wherever rows j and j-12 of the base
column are both non-missing, YoY row j equals
(value[j] - value[j-12]) / value[j-12] * 100.  The hypothesis hclash rules
out a base series whose raw identifier itself ends in _YoY, which would
shadow the derived column's name. -/
theorem c3_yoy_by_row (ss : List CPISeries) (df : DF)
    (h : clean_cpi_data (some (.wellFormed ss)) = Except.ok (some df))
    (hcanon : canonicalPeriods ss)
    (c : String) (s0 : List (Nat × ℚ))
    (hc : lookupA c (cpiPivot (cpiRecords ss)).cols = some s0)
    (hclash : lookupA (c ++ "_YoY") (cpiPivot (cpiRecords ss)).cols = none) :
    (∀ j, j < 12 → (df.colPos (c ++ "_YoY")).getD j none = none)
    ∧ (∀ j v w, 12 ≤ j →
        (df.colPos c).getD j none = some v →
        (df.colPos c).getD (j - 12) none = some w →
        (df.colPos (c ++ "_YoY")).getD j none = some ((v - w) / w * 100)) := by
  simp only [clean_cpi_data] at h
  split at h
  · exact Except.noConfusion h
  · split at h
    · exact Except.noConfusion h
    · split at h
      · exact Except.noConfusion h
      · injection h with h
        injection h with h
        subst h
        have hnd : (cpiPivot (cpiRecords ss)).index.Nodup :=
          (cpiPivot_index_pairwise _ hcanon).imp (fun hab => ne_of_lt hab)
        have hlc : lookupA c (addYoY (cpiPivot (cpiRecords ss))).cols = some s0 :=
          lookupA_append_some c _ hc
        have hly : lookupA (c ++ "_YoY") (addYoY (cpiPivot (cpiRecords ss))).cols
            = some (reassoc (cpiPivot (cpiRecords ss)).index
                (pctChange12 (posOf (cpiPivot (cpiRecords ss)).index s0))) := by
          show lookupA (c ++ "_YoY") ((cpiPivot (cpiRecords ss)).cols ++ _) = _
          rw [lookupA_append_none _ _ hclash,
            lookupA_suffix_map c "_YoY"
              (fun s => reassoc (cpiPivot (cpiRecords ss)).index
                (pctChange12 (posOf (cpiPivot (cpiRecords ss)).index s))), hc]
          rfl
        have hpc : (addYoY (cpiPivot (cpiRecords ss))).colPos c
            = posOf (cpiPivot (cpiRecords ss)).index s0 := by
          unfold DF.colPos DF.cell posOf
          exact List.map_congr_left (fun m _ => by rw [hlc]; rfl)
        have hpy : (addYoY (cpiPivot (cpiRecords ss))).colPos (c ++ "_YoY")
            = pctChange12 (posOf (cpiPivot (cpiRecords ss)).index s0) := by
          unfold DF.colPos DF.cell
          have h1 : (addYoY (cpiPivot (cpiRecords ss))).index.map
              (fun m => (lookupA (c ++ "_YoY") (addYoY (cpiPivot (cpiRecords ss))).cols).bind
                (fun s => lookupA m s))
              = posOf (cpiPivot (cpiRecords ss)).index
                (reassoc (cpiPivot (cpiRecords ss)).index
                  (pctChange12 (posOf (cpiPivot (cpiRecords ss)).index s0))) := by
            unfold posOf
            exact List.map_congr_left (fun m _ => by rw [hly]; rfl)
          rw [h1, posOf_reassoc _ _ hnd]
          rw [length_pctChange12]
          unfold posOf
          rw [List.length_map]
        constructor
        · intro j hj
          rw [hpy]
          exact pctChange12_getD_lt12 _ j hj
        · intro j v w hj hv hw
          rw [hpc] at hv hw
          rw [hpy]
          exact pctChange12_getD_ge _ j v w hj hv hw

/-- The spec's contiguous concrete scenario: one series observed monthly from
2016-01 through 2017-01, first value 100, last value 102. -/
def cpi13SS : List CPISeries :=
  [⟨"X",
    [⟨2016, "M01", 100⟩, ⟨2016, "M02", 101⟩, ⟨2016, "M03", 101⟩,
     ⟨2016, "M04", 101⟩, ⟨2016, "M05", 101⟩, ⟨2016, "M06", 101⟩,
     ⟨2016, "M07", 101⟩, ⟨2016, "M08", 101⟩, ⟨2016, "M09", 101⟩,
     ⟨2016, "M10", 101⟩, ⟨2016, "M11", 101⟩, ⟨2016, "M12", 101⟩,
     ⟨2017, "M01", 102⟩]⟩]

/-- Witness for the amended C3 theorem: on the contiguous 13-month payload,
row 5 of the derived column is missing and row 12 (2017-01) equals
(102 - 100) / 100 * 100 = 2. -/
theorem c3_yoy_by_row_witness :
    ((addYoY (cpiPivot (cpiRecords cpi13SS))).colPos ("X" ++ "_YoY")).getD 5 none = none
    ∧ ((addYoY (cpiPivot (cpiRecords cpi13SS))).colPos ("X" ++ "_YoY")).getD 12 none
        = some (((102 : ℚ) - 100) / 100 * 100) := by
  have h := c3_yoy_by_row cpi13SS (addYoY (cpiPivot (cpiRecords cpi13SS))) (by decide)
    (by decide) "X" ((lookupA "X" (cpiPivot (cpiRecords cpi13SS)).cols).getD [])
    (by decide) (by decide)
  exact ⟨h.1 5 (by omega), h.2 12 102 100 (by omega) (by decide) (by decide)⟩

/-! Lemmas for merge order-independence (C4). -/

theorem sortedDedup_nodup (l : List Nat) : (sortedDedup l).Nodup :=
  (sortedDedup_pairwise l).imp (fun hab => ne_of_lt hab)

theorem sortedDedup_mem (l : List Nat) (m : Nat) : m ∈ sortedDedup l ↔ m ∈ l := by
  unfold sortedDedup
  rw [List.mem_insertionSort, List.mem_dedup]

theorem sortedDedup_eq_self {l : List Nat} (h : List.Pairwise (· < ·) l) :
    sortedDedup l = l := by
  unfold sortedDedup
  rw [List.dedup_eq_self.mpr (h.imp (fun hab => ne_of_lt hab))]
  exact List.Sorted.insertionSort_eq (h.imp (fun hab => le_of_lt hab))

theorem sortedDedup_eq_of_perm {l l' : List Nat} (h : l.Perm l') :
    sortedDedup l = sortedDedup l' :=
  List.eq_of_perm_of_sorted
    (((List.perm_insertionSort _ _).trans h.dedup).trans
      (List.perm_insertionSort _ _).symm)
    (List.sorted_insertionSort _ _) (List.sorted_insertionSort _ _)

theorem sortedDedup_absorb (l l₂ : List Nat) :
    sortedDedup (sortedDedup l ++ l₂) = sortedDedup (l ++ l₂) := by
  apply List.eq_of_perm_of_sorted ?_
    (List.sorted_insertionSort _ _) (List.sorted_insertionSort _ _)
  apply (List.perm_ext_iff_of_nodup (sortedDedup_nodup _) (sortedDedup_nodup _)).mpr
  intro a
  rw [sortedDedup_mem, sortedDedup_mem, List.mem_append, List.mem_append, sortedDedup_mem]

theorem foldl_joinOuter_cols :
    ∀ (ts : List DF) (acc : DF),
      (ts.foldl joinOuter acc).cols = acc.cols ++ ts.flatMap (fun t => t.cols) := by
  intro ts
  induction ts with
  | nil => intro acc; simp
  | cons t ts ih =>
    intro acc
    rw [List.foldl_cons, ih]
    show (joinOuter acc t).cols ++ _ = _
    rw [show (joinOuter acc t).cols = acc.cols ++ t.cols from rfl,
      List.flatMap_cons, List.append_assoc]

theorem foldl_joinOuter_index :
    ∀ (ts : List DF) (acc : DF), List.Pairwise (· < ·) acc.index →
      (ts.foldl joinOuter acc).index
        = sortedDedup (acc.index ++ ts.flatMap (fun t => t.index)) := by
  intro ts
  induction ts with
  | nil =>
    intro acc h
    rw [List.flatMap_nil, List.append_nil, List.foldl_nil, sortedDedup_eq_self h]
  | cons t ts ih =>
    intro acc h
    rw [List.foldl_cons, ih (joinOuter acc t) (sortedDedup_pairwise _),
      show (joinOuter acc t).index = sortedDedup (acc.index ++ t.index) from rfl,
      sortedDedup_absorb, List.flatMap_cons, List.append_assoc]

theorem lookupA_perm {κ β : Type} [DecidableEq κ] (k : κ) :
    ∀ {l l' : List (κ × β)}, l.Perm l' → (l.map Prod.fst).Nodup →
      lookupA k l = lookupA k l' := by
  intro l l' hp
  induction hp with
  | nil => intro _; rfl
  | cons x hp ih =>
    intro hnd
    rw [List.map_cons, List.nodup_cons] at hnd
    rw [lookupA_cons, lookupA_cons]
    by_cases hk : k = x.1
    · rw [if_pos hk, if_pos hk]
    · rw [if_neg hk, if_neg hk, ih hnd.2]
  | swap x y l =>
    intro hnd
    rw [List.map_cons, List.map_cons, List.nodup_cons, List.nodup_cons] at hnd
    have hxy : y.1 ≠ x.1 := fun hh => hnd.1 (by rw [hh]; exact List.mem_cons_self _ _)
    rw [lookupA_cons, lookupA_cons, lookupA_cons, lookupA_cons]
    by_cases hky : k = y.1 <;> by_cases hkx : k = x.1
    · exact absurd (hky ▸ hkx : y.1 = x.1) hxy
    · rw [if_pos hky, if_neg hkx, if_pos hky]
    · rw [if_neg hky, if_pos hkx, if_pos hkx]
    · rw [if_neg hky, if_neg hkx, if_neg hkx, if_neg hky]
  | trans h₁ h₂ ih₁ ih₂ =>
    intro hnd
    rw [ih₁ hnd, ih₂ (((h₁.map Prod.fst)).nodup hnd)]

theorem mergeTables_cols (ts : List DF) :
    (mergeTables ts).cols = ts.flatMap (fun t => t.cols) := by
  cases ts with
  | nil => rfl
  | cons d rest =>
    rw [show mergeTables (d :: rest) = rest.foldl joinOuter d from rfl,
      foldl_joinOuter_cols, List.flatMap_cons]

theorem mergeTables_index (ts : List DF) (hs : ∀ t ∈ ts, List.Pairwise (· < ·) t.index) :
    (mergeTables ts).index = sortedDedup (ts.flatMap (fun t => t.index)) := by
  cases ts with
  | nil => rfl
  | cons d rest =>
    rw [show mergeTables (d :: rest) = rest.foldl joinOuter d from rfl,
      foldl_joinOuter_index rest d (hs d (List.mem_cons_self _ _)), List.flatMap_cons]

/-- C4: the outer-join reduction of merge_all_data is order-independent.  For
any per-source tables with pairwise-disjoint column names, sorted unique
month indices, and no empty table, merging any permutation of them yields
the same column-name set, the same month index, and the same value at every
(column, month) cell - including months present in more than one source. -/
theorem c4_merge_order_independent (ts ts' : List DF) (hp : ts.Perm ts')
    (hnd : (ts.flatMap (fun t => t.cols.map Prod.fst)).Nodup)
    (hs : ∀ t ∈ ts, List.Pairwise (· < ·) t.index)
    (hne : ∀ t ∈ ts, t.isEmpty = false) :
    (∀ c, c ∈ (mergeTables ts).cols.map Prod.fst
        ↔ c ∈ (mergeTables ts').cols.map Prod.fst)
    ∧ (mergeTables ts).index = (mergeTables ts').index
    ∧ (∀ c m, (mergeTables ts).cell c m = (mergeTables ts').cell c m) := by
  have hs' : ∀ t ∈ ts', List.Pairwise (· < ·) t.index :=
    fun t ht => hs t (hp.mem_iff.mpr ht)
  have hpc : (ts.flatMap (fun t => t.cols)).Perm (ts'.flatMap (fun t => t.cols)) := by
    rw [List.flatMap_def, List.flatMap_def]
    exact (hp.map _).flatten
  have hpi : (ts.flatMap (fun t => t.index)).Perm (ts'.flatMap (fun t => t.index)) := by
    rw [List.flatMap_def, List.flatMap_def]
    exact (hp.map _).flatten
  have hndk : ((ts.flatMap (fun t => t.cols)).map Prod.fst).Nodup := by
    rw [List.map_flatMap]
    exact hnd
  refine ⟨?_, ?_, ?_⟩
  · intro c
    rw [mergeTables_cols, mergeTables_cols]
    exact (hpc.map Prod.fst).mem_iff
  · rw [mergeTables_index ts hs, mergeTables_index ts' hs', sortedDedup_eq_of_perm hpi]
  · intro c m
    unfold DF.cell
    rw [mergeTables_cols, mergeTables_cols, lookupA_perm c hpc hndk]

/-- A one-column table observed in August 2016. -/
def tA : DF := ⟨[24199], [("A1", [(24199, 1)])]⟩

/-- A one-column table observed in September 2016. -/
def tB : DF := ⟨[24200], [("B1", [(24200, 2)])]⟩

/-- Witness for C4: merging [tA, tB] and [tB, tA] gives the same index and
the same B1 cell. -/
theorem c4_merge_order_independent_witness :
    (mergeTables [tA, tB]).index = (mergeTables [tB, tA]).index
    ∧ (mergeTables [tA, tB]).cell "B1" 24200 = (mergeTables [tB, tA]).cell "B1" 24200 :=
  have h := c4_merge_order_independent [tA, tB] [tB, tA] (by decide) (by decide)
    (by decide) (by decide)
  ⟨h.2.1, h.2.2 "B1" 24200⟩
